import Mathlib

/-!
Shallow embedding of the BSD network/configuration subsystem of the
cloud-init fork under verification:

* `cloudinit/net/freebsd.py`   — `Renderer.loadrcconf`, `Renderer.updatercconf`,
  `Renderer._get_ifname_by_mac`, `Renderer._write_network`
* `cloudinit/net/netbsd.py`    — `Renderer._get_ifname_by_mac`, `Renderer._write_network`
* `cloudinit/distros/freebsd.py` — `Distro.loadrcconf` / `Distro.updatercconf`
  (line-for-line identical to the `net/freebsd.py` copies, embedded once)

Python values that may be `None` or a string are modelled by `PyVal`
(`str(None)` prints as `"None"`, and `None == "None"` is false).  The
rc.conf file is modelled as its list of physical lines; Python dicts are
insertion-ordered association lists.  Fallible Python operations
(`val[0]` on an empty string, `str + None`, `' '.join` over `None`)
return `Except String` with the exception class name as the error.

The `ifconfig -a` output is abstracted to its parsed block structure: an
ordered list of `(interface name, optional parsed hardware address)`
pairs, exactly the data `_get_ifname_by_mac` extracts with its two
regexes before the MAC comparison.
-/

namespace CloudInitNet

/-- The double-quote character `"` (written numerically). -/
def dquote : Char := Char.ofNat 34

/-- The single-quote character (written numerically). -/
def squote : Char := Char.ofNat 39

/-- Python `\s` for the ASCII range: space, tab, newline, carriage
return, vertical tab, form feed. -/
def isPySpace (c : Char) : Bool :=
  c == Char.ofNat 32 || c == Char.ofNat 9 || c == Char.ofNat 10 ||
  c == Char.ofNat 13 || c == Char.ofNat 11 || c == Char.ofNat 12

/-- Python `\w` for the ASCII range: `[A-Za-z0-9_]`. -/
def isWordChar (c : Char) : Bool :=
  c.isAlphanum || c == Char.ofNat 95

/-- Python `str.rstrip()` on a list of characters. -/
def rstripChars (l : List Char) : List Char :=
  (l.reverse.dropWhile isPySpace).reverse

/-- A Python value stored in the rc.conf dict: either `None` or a string.
(`updatercconf` is called with `subnet.get('gateway')`, which may be
`None`; everything read back from the file is a string.) -/
inductive PyVal where
  | pynone
  | pystr (s : String)
  deriving DecidableEq

/-- Python `'%s' % v`: `None` prints as `"None"`. -/
def PyVal.toPyStr : PyVal → String
  | .pynone => "None"
  | .pystr s => s

/-- Lift an optional string (result of `dict.get`) to a `PyVal`. -/
def pyOfOpt : Option String → PyVal
  | none => .pynone
  | some s => .pystr s

/-- Python `'%s' % v` for an optional string. -/
def pyShowOpt : Option String → String
  | none => "None"
  | some s => s

/-- Python truthiness of an optional string (`None` and `''` are falsy). -/
def pyTruthy : Option String → Bool
  | none => false
  | some s => s != ""

/-- The match of `re.match(r'^(\w+)\s*=\s*(.*)\s*', line)` on one line:
`group(1)` (the `\w+` key) and `group(2)` (everything after the greedy
`\s*` following `=`, stopping at a newline since `.` does not cross
lines).  Returns `none` when the line does not match. -/
def parseLineChars (l : List Char) : Option (List Char × List Char) :=
  let key := l.takeWhile isWordChar
  if key.isEmpty then none
  else
    match (l.dropWhile isWordChar).dropWhile isPySpace with
    | [] => none
    | c :: rest =>
      if c == Char.ofNat 61 then
        some (key, (rest.dropWhile isPySpace).takeWhile (fun ch => !(ch == Char.ofNat 10)))
      else none

/-- The quote-stripping block of `loadrcconf`:

    if val[0] in ('"', "'"): val = val[1:]
    if val[-1] in ('"', "'"): val = val[0:-1]
    if len(val) == 0: continue  # key dropped
    conf[key] = val

Indexing an empty string raises `IndexError`; `.ok none` is the
silently-dropped-key outcome. -/
def stripVal (val : List Char) : Except String (Option (List Char)) :=
  match val with
  | [] => .error "IndexError"
  | c :: cs =>
    let v1 := if c == dquote || c == squote then cs else c :: cs
    match v1.getLast? with
    | none => .error "IndexError"
    | some d =>
      let v2 := if d == dquote || d == squote then v1.dropLast else v1
      if v2.isEmpty then .ok none else .ok (some v2)

/-- Insertion-ordered dict write `conf[k] = v`: updates the existing
entry in place, or appends a new entry at the end. -/
def dictInsert {α : Type} : List (String × α) → String → α → List (String × α)
  | [], k, v => [(k, v)]
  | (k0, v0) :: rest, k, v =>
    if k0 = k then (k0, v) :: rest else (k0, v0) :: dictInsert rest k v

/-- Dict lookup `conf.get(k)` / `k in conf`. -/
def dictLookup {α : Type} : List (String × α) → String → Option α
  | [], _ => none
  | (k0, v0) :: rest, k => if k0 = k then some v0 else dictLookup rest k

/-- The in-memory representation of the parsed rc.conf file. -/
abbrev Store := List (String × PyVal)

/-- The line loop of `loadrcconf` (both `net/freebsd.py` and
`distros/freebsd.py` carry the identical function): unmatched lines are
skipped, matched values are rstripped, unquoted, and empty results are
dropped.  `group(1).rstrip()` is omitted: `group(1)` is `\w+`, which
never ends in whitespace. -/
def loadLines : List String → Store → Except String Store
  | [], conf => .ok conf
  | line :: rest, conf =>
    match parseLineChars line.data with
    | none => loadLines rest conf
    | some (k, v) =>
      match stripVal (rstripChars v) with
      | .error e => .error e
      | .ok none => loadLines rest conf
      | .ok (some v2) => loadLines rest (dictInsert conf (String.mk k) (.pystr (String.mk v2)))

/-- `loadrcconf`, taking the file as its list of physical lines. -/
def loadrcconfLines (lines : List String) : Except String Store :=
  loadLines lines []

/-- The write loop of `updatercconf`: one `key="value"` line per entry,
in dict iteration (insertion) order. -/
def serializeStore (conf : Store) : List String :=
  conf.map (fun kv => kv.1 ++ "=\"" ++ kv.2.toPyStr ++ "\"")

/-- The rc.conf file together with the number of `util.write_file`
calls performed on it (to observe when a rewrite happens). -/
structure RcState where
  fileLines : List String
  writes : Nat
  deriving DecidableEq

/-- `updatercconf(key, value)` (identical in `net/freebsd.py` and
`distros/freebsd.py`): re-reads the file, inserts the key if absent or
updates it in place if the stored value differs, and rewrites the whole
file only when something changed. -/
def updatercconf (key : String) (value : PyVal) (st : RcState) : Except String RcState :=
  match loadrcconfLines st.fileLines with
  | .error e => .error e
  | .ok conf =>
    match dictLookup conf key with
    | none => .ok ⟨serializeStore (dictInsert conf key value), st.writes + 1⟩
    | some v0 =>
      if v0 = value then .ok st
      else .ok ⟨serializeStore (dictInsert conf key value), st.writes + 1⟩

/-- The parsed `ifconfig -a` output: each block contributes its
interface name and, when the `ether`/`address:` regex matched, the
captured hardware address. -/
abbrev Listing := List (String × Option String)

/-- `_get_ifname_by_mac(mac)`: first block whose captured hardware
address equals `mac`; falls off the end (Python implicit `None`) when no
block matches or when `mac` is `None`. -/
def get_ifname_by_mac : Listing → Option String → Option String
  | [], _ => none
  | (ifname, ether) :: rest, mac =>
    match ether, mac with
    | some g, some m => if g = m then some ifname else get_ifname_by_mac rest (some m)
    | _, _ => get_ifname_by_mac rest mac

/-- One entry of `interface.get("subnets", [])`.  An `Option` field
models the corresponding dict key being absent (`dict.get` → `None`,
`'key' in subnet` → `false`). -/
structure Subnet where
  type : Option String
  address : Option String
  netmask : Option String
  gateway : Option String
  dns_nameservers : Option (List String)
  dns_search : Option (List String)
  deriving DecidableEq

/-- One element of `settings.iter_interfaces()`. -/
structure Interface where
  name : Option String
  mac_address : Option String
  subnets : List Subnet
  deriving DecidableEq

/-- `re.match(r'^lo\d+$', s)`: `lo` followed by one or more digits. -/
def loMatch (s : String) : Bool :=
  match s.data with
  | 'l' :: 'o' :: c :: rest => (c :: rest).all Char.isDigit
  | _ => false

/-- `subnet.get('address') + ' netmask ' + subnet.get('netmask')`:
adding `None` to a string raises `TypeError`. -/
def mkIfconfig : Option String → Option String → Except String String
  | some a, some mk => .ok (a ++ " netmask " ++ mk)
  | _, _ => .error "TypeError"

/-- `'ifconfig_' + device_name`: raises `TypeError` when the name is
`None` (an unresolved interface). -/
def pyKeyName : Option String → Except String String
  | some s => .ok ("ifconfig_" ++ s)
  | none => .error "TypeError"

/-- The state threaded through the FreeBSD `_write_network` loop: the
rc.conf file plus the `nameservers` / `searchdomains` accumulators. -/
structure FBState where
  rc : RcState
  nameservers : List String
  searchdomains : List String
  deriving DecidableEq

/-- One iteration of the `for interface in settings.iter_interfaces()`
loop of `net/freebsd.py` `_write_network` (lines 109-142):
loopback skip, rename directive, name fallback by MAC, first subnet
only, static/DHCP entry, DNS accumulation. -/
def stepFreebsd (listing : Listing) (st : FBState) (iface : Interface) :
    Except String FBState :=
  if pyTruthy iface.name && loMatch (iface.name.getD "") then .ok st
  else
    let nameAndSt : Except String (FBState × Option String) :=
      if pyTruthy iface.mac_address && pyTruthy iface.name then
        let cur := get_ifname_by_mac listing iface.mac_address
        if cur ≠ iface.name then
          match updatercconf ("ifconfig_" ++ pyShowOpt cur ++ "_name")
              (.pystr (iface.name.getD "")) st.rc with
          | .error e => .error e
          | .ok rc2 => .ok (⟨rc2, st.nameservers, st.searchdomains⟩, iface.name)
        else .ok (st, iface.name)
      else .ok (st, get_ifname_by_mac listing iface.mac_address)
    match nameAndSt with
    | .error e => .error e
    | .ok (st2, device_name) =>
      match iface.subnets with
      | [] => .error "IndexError"
      | subnet :: _ =>
        if subnet.type = some "static" then
          match mkIfconfig subnet.address subnet.netmask with
          | .error e => .error e
          | .ok ifconfig =>
            match updatercconf "defaultrouter" (pyOfOpt subnet.gateway) st2.rc with
            | .error e => .error e
            | .ok rc3 =>
              let st3 : FBState :=
                ⟨rc3, st2.nameservers ++ subnet.dns_nameservers.getD [],
                 st2.searchdomains ++ subnet.dns_search.getD []⟩
              match pyKeyName device_name with
              | .error e => .error e
              | .ok key =>
                match updatercconf key (.pystr ifconfig) st3.rc with
                | .error e => .error e
                | .ok rc4 => .ok ⟨rc4, st3.nameservers, st3.searchdomains⟩
        else
          match pyKeyName device_name with
          | .error e => .error e
          | .ok key =>
            match updatercconf key (.pystr "DHCP") st2.rc with
            | .error e => .error e
            | .ok rc4 => .ok ⟨rc4, st2.nameservers, st2.searchdomains⟩

/-- The interface loop of `net/freebsd.py` `_write_network`; an
exception in any iteration aborts the whole render. -/
def writeNetworkFreebsd (listing : Listing) (ifaces : List Interface)
    (st0 : FBState) : Except String FBState :=
  List.foldlM (stepFreebsd listing) st0 ifaces

/-- Modelled from the spec: `netbsd_util.set_rc_config_value` is not
under `src/` (only its callers are).  Per spec §4.1 the key/value store
`Upsert` "inserts if absent, updates if different" — an
insertion-ordered dict write. -/
def set_rc_config_value (kv : List (String × String)) (key value : String) :
    List (String × String) :=
  dictInsert kv key value

/-- The state threaded through the NetBSD `_write_network` loop:
the rc.conf key/value store, `self.dhcp_interfaces` (which may collect
Python `None` for an unresolved name), and the DNS accumulators. -/
structure NBState where
  kv : List (String × String)
  dhcp_interfaces : List (Option String)
  nameservers : List String
  searchdomains : List String
  deriving DecidableEq

/-- `' '.join(xs)`: raises `TypeError` when any element is `None`. -/
def pyJoin : List (Option String) → Except String String
  | [] => .ok ""
  | [some s] => .ok s
  | some s :: x :: rest =>
    match pyJoin (x :: rest) with
    | .error e => .error e
    | .ok r => .ok (s ++ " " ++ r)
  | none :: _ => .error "TypeError"

/-- One iteration of the interface loop of `net/netbsd.py`
`_write_network` (lines 50-77): MAC lookup replaces the declared name
whenever a MAC is present, first subnet only, static entries go to the
store, DHCP interfaces are only collected.  There is no loopback check
and no per-interface DHCP key. -/
def stepNetbsd (listing : Listing) (st : NBState) (iface : Interface) :
    Except String NBState :=
  let device_name :=
    if pyTruthy iface.mac_address then get_ifname_by_mac listing iface.mac_address
    else iface.name
  match iface.subnets with
  | [] => .error "IndexError"
  | subnet :: _ =>
    if subnet.type = some "static" then
      match mkIfconfig subnet.address subnet.netmask with
      | .error e => .error e
      | .ok ifconfig =>
        let kv1 :=
          if pyTruthy subnet.gateway then
            set_rc_config_value st.kv "defaultroute" (subnet.gateway.getD "")
          else st.kv
        match pyKeyName device_name with
        | .error e => .error e
        | .ok key =>
          .ok ⟨set_rc_config_value kv1 key ifconfig, st.dhcp_interfaces,
               st.nameservers ++ subnet.dns_nameservers.getD [],
               st.searchdomains ++ subnet.dns_search.getD []⟩
    else
      .ok ⟨st.kv, st.dhcp_interfaces ++ [device_name], st.nameservers, st.searchdomains⟩

/-- The aggregate DHCP directives after the loop (`net/netbsd.py`
lines 80-82): `dhcpcd=YES` and `dhcpcd_flags=' '.join(...)` when any
interface was collected. -/
def finishNetbsd (st : NBState) : Except String NBState :=
  if st.dhcp_interfaces.isEmpty then .ok st
  else
    match pyJoin st.dhcp_interfaces with
    | .error e => .error e
    | .ok flags =>
      .ok ⟨set_rc_config_value (set_rc_config_value st.kv "dhcpcd" "YES")
             "dhcpcd_flags" flags,
           st.dhcp_interfaces, st.nameservers, st.searchdomains⟩

/-- `net/netbsd.py` `_write_network`: the interface loop followed by the
aggregate DHCP directives. -/
def writeNetworkNetbsd (listing : Listing) (ifaces : List Interface)
    (st0 : NBState) : Except String NBState :=
  match List.foldlM (stepNetbsd listing) st0 ifaces with
  | .error e => .error e
  | .ok st => finishNetbsd st

/-- Modelled from the spec: `ResolvConf.add_nameserver` /
`add_search_domain` live in `cloudinit/distros/parsers/resolv_conf.py`,
which is not under `src/`.  Per spec §4.2 an add "fails with
`DuplicateError` ... if already present; otherwise appends" (the
renderer catches `ValueError`). -/
def addEntry (l : List String) (s : String) : Except String (List String) :=
  if s ∈ l then .error "ValueError" else .ok (l ++ [s])

/-- The DNS merge loop of `_write_network` (identical in
`net/freebsd.py` lines 160-171 and `net/netbsd.py` lines 96-107): each
add is tried, a `ValueError` is logged and the loop continues with the
remaining entries. -/
def mergeEntries (l : List String) (new : List String) : List String :=
  new.foldl (fun acc s =>
    match addEntry acc s with
    | .ok r => r
    | .error _ => acc) l

/-! ### Well-formedness of store entries

A key that the `^(\w+)` pattern can re-read, and a value that survives
the write-then-reload cycle (`key="value"` written, one quote layer
stripped on read).  Values containing a line break would be torn apart
by `splitlines`, so they are excluded. -/

/-- A key the loader's `^(\w+)` pattern reproduces: nonempty, all word
characters. -/
def goodKey (k : String) : Bool :=
  k != "" && k.data.all isWordChar

/-- A string value that round-trips through `key="value"`: nonempty and
free of the line-splitting characters. -/
def goodValStr (s : String) : Bool :=
  s != "" && s.data.all (fun c =>
    !(c == Char.ofNat 10) && !(c == Char.ofNat 13) &&
    !(c == Char.ofNat 11) && !(c == Char.ofNat 12))

/-- A store entry that round-trips: good key, good string value
(a `None` value reads back as the string `"None"`, so it never
round-trips as `None`). -/
def goodEntry : String × PyVal → Bool
  | (k, .pystr s) => goodKey k && goodValStr s
  | (_, .pynone) => false

/-! ### Generic list and string facts -/

theorem data_append (s t : String) : (s ++ t).data = s.data ++ t.data := rfl

theorem data_ne_nil {k : String} (h : k ≠ "") : k.data ≠ [] := by
  intro hd
  exact h (show String.mk k.data = String.mk [] from by rw [hd])

theorem ne_empty_of_data_ne_nil {k : String} (h : k.data ≠ []) : k ≠ "" := by
  intro he
  exact h (by rw [he])

theorem takeWhile_append_stop {p : Char → Bool} {l : List Char} {c : Char}
    {r : List Char} (hl : l.all p = true) (hc : p c = false) :
    (l ++ c :: r).takeWhile p = l := by
  induction l with
  | nil => simp [List.takeWhile_cons, hc]
  | cons a t ih =>
    simp only [List.all_cons, Bool.and_eq_true] at hl
    simp [List.takeWhile_cons, hl.1, ih hl.2]

theorem dropWhile_append_stop {p : Char → Bool} {l : List Char} {c : Char}
    {r : List Char} (hl : l.all p = true) (hc : p c = false) :
    (l ++ c :: r).dropWhile p = c :: r := by
  induction l with
  | nil => simp [List.dropWhile_cons, hc]
  | cons a t ih =>
    simp only [List.all_cons, Bool.and_eq_true] at hl
    simp [List.dropWhile_cons, hl.1, ih hl.2]

theorem takeWhile_of_all {p : Char → Bool} {l : List Char}
    (hl : l.all p = true) : l.takeWhile p = l := by
  induction l with
  | nil => rfl
  | cons a t ih =>
    simp only [List.all_cons, Bool.and_eq_true] at hl
    simp [List.takeWhile_cons, hl.1, ih hl.2]

theorem rstripChars_snoc {l : List Char} {c : Char} (hc : isPySpace c = false) :
    rstripChars (l ++ [c]) = l ++ [c] := by
  unfold rstripChars
  rw [List.reverse_append]
  simp [List.dropWhile_cons, hc]

/-! ### Dict lemmas -/

theorem dictLookup_dictInsert_self {α : Type} (l : List (String × α)) (k : String)
    (v : α) : dictLookup (dictInsert l k v) k = some v := by
  induction l with
  | nil => simp [dictInsert, dictLookup]
  | cons e rest ih =>
    obtain ⟨k0, v0⟩ := e
    by_cases hk : k0 = k
    · simp [dictInsert, dictLookup, hk]
    · simp [dictInsert, dictLookup, hk, ih]

theorem dictLookup_dictInsert_ne {α : Type} (l : List (String × α)) {k k' : String}
    (v : α) (h : k' ≠ k) : dictLookup (dictInsert l k v) k' = dictLookup l k' := by
  induction l with
  | nil => simp [dictInsert, dictLookup, Ne.symm h]
  | cons e rest ih =>
    obtain ⟨k0, v0⟩ := e
    by_cases hk : k0 = k
    · subst hk
      simp [dictInsert, dictLookup, Ne.symm h]
    · simp [dictInsert, dictLookup, hk, ih]

theorem dictLookup_eq_none_iff {α : Type} {l : List (String × α)} {k : String} :
    dictLookup l k = none ↔ k ∉ l.map Prod.fst := by
  induction l with
  | nil => simp [dictLookup]
  | cons e rest ih =>
    obtain ⟨k0, v0⟩ := e
    rw [dictLookup]
    by_cases hk : k0 = k
    · subst hk; simp
    · simp [hk, ih, Ne.symm hk]

theorem dictInsert_of_lookup_none {α : Type} {l : List (String × α)} {k : String}
    {v : α} (h : dictLookup l k = none) : dictInsert l k v = l ++ [(k, v)] := by
  induction l with
  | nil => rfl
  | cons e rest ih =>
    obtain ⟨k0, v0⟩ := e
    rw [dictLookup] at h
    by_cases hk : k0 = k
    · simp [hk] at h
    · simp only [dictInsert, hk, if_false]
      rw [ih (by simpa [hk] using h)]
      simp

theorem dictInsert_of_lookup_self {α : Type} {l : List (String × α)} {k : String}
    {v : α} (h : dictLookup l k = some v) : dictInsert l k v = l := by
  induction l with
  | nil => simp [dictLookup] at h
  | cons e rest ih =>
    obtain ⟨k0, v0⟩ := e
    rw [dictLookup] at h
    by_cases hk : k0 = k
    · simp only [hk, if_true, Option.some.injEq] at h
      simp [dictInsert, hk, h]
    · simp only [hk, if_false] at h
      simp [dictInsert, hk, ih h]

theorem keys_dictInsert_update {α : Type} {l : List (String × α)} {k : String}
    {v v0 : α} (h : dictLookup l k = some v0) :
    (dictInsert l k v).map Prod.fst = l.map Prod.fst := by
  induction l with
  | nil => simp [dictLookup] at h
  | cons e rest ih =>
    obtain ⟨k0, v1⟩ := e
    rw [dictLookup] at h
    by_cases hk : k0 = k
    · simp [dictInsert, hk]
    · simp only [hk, if_false] at h
      simp [dictInsert, hk, ih h]

theorem dictLookup_append_left_none {α : Type} {l1 l2 : List (String × α)}
    {k : String} (h : dictLookup l1 k = none) :
    dictLookup (l1 ++ l2) k = dictLookup l2 k := by
  induction l1 with
  | nil => rfl
  | cons e rest ih =>
    obtain ⟨k0, v0⟩ := e
    rw [dictLookup] at h
    by_cases hk : k0 = k
    · simp [hk] at h
    · simp only [hk, if_false] at h
      simp [dictLookup, hk, ih h]

theorem nodup_keys_dictInsert {α : Type} {l : List (String × α)} {k : String}
    {v : α} (h : (l.map Prod.fst).Nodup) :
    ((dictInsert l k v).map Prod.fst).Nodup := by
  cases hl : dictLookup l k with
  | none =>
    rw [dictInsert_of_lookup_none hl]
    rw [List.map_append, List.nodup_append]
    refine ⟨h, by simp, ?_⟩
    intro a ha hb
    simp only [List.map_cons, List.map_nil, List.mem_singleton] at hb
    subst hb
    exact (dictLookup_eq_none_iff.mp hl) ha
  | some v0 => rw [keys_dictInsert_update hl]; exact h

theorem all_goodEntry_dictInsert {conf : Store} {k : String} {s : String}
    (hg : conf.all goodEntry = true) (hk : goodKey k = true)
    (hs : goodValStr s = true) :
    (dictInsert conf k (.pystr s)).all goodEntry = true := by
  induction conf with
  | nil => simp [dictInsert, goodEntry, hk, hs]
  | cons e rest ih =>
    obtain ⟨k0, v0⟩ := e
    simp only [List.all_cons, Bool.and_eq_true] at hg
    by_cases hk0 : k0 = k
    · simp [dictInsert, hk0, goodEntry, hk, hs, hg.2]
    · simp [dictInsert, hk0, hg.1, ih hg.2]

/-! ### The write-then-reload round trip -/

theorem goodKey_ne_empty {k : String} (h : goodKey k = true) : k ≠ "" := by
  simp only [goodKey, Bool.and_eq_true, bne_iff_ne] at h
  exact h.1

theorem goodKey_all_word {k : String} (h : goodKey k = true) :
    k.data.all isWordChar = true := by
  simp only [goodKey, Bool.and_eq_true] at h
  exact h.2

theorem goodValStr_ne_empty {s : String} (h : goodValStr s = true) : s ≠ "" := by
  simp only [goodValStr, Bool.and_eq_true, bne_iff_ne] at h
  exact h.1

theorem goodValStr_no_nl {s : String} (h : goodValStr s = true) :
    s.data.all (fun c => !(c == Char.ofNat 10)) = true := by
  simp only [goodValStr, Bool.and_eq_true] at h
  rw [List.all_eq_true]
  intro c hc
  have h2 := (List.all_eq_true.mp h.2) c hc
  simp only [Bool.and_eq_true] at h2
  exact h2.1.1.1

theorem isWordChar_not_special {c : Char} (h : isWordChar c = true) :
    (!(c == Char.ofNat 10) && !(c == Char.ofNat 13) &&
     !(c == Char.ofNat 11) && !(c == Char.ofNat 12)) = true := by
  by_cases h10 : c = Char.ofNat 10
  · subst h10; exact absurd h (by decide)
  by_cases h13 : c = Char.ofNat 13
  · subst h13; exact absurd h (by decide)
  by_cases h11 : c = Char.ofNat 11
  · subst h11; exact absurd h (by decide)
  by_cases h12 : c = Char.ofNat 12
  · subst h12; exact absurd h (by decide)
  simp [h10, h13, h11, h12]

theorem goodValStr_of_goodKey {k : String} (h : goodKey k = true) :
    goodValStr k = true := by
  simp only [goodKey, Bool.and_eq_true] at h
  simp only [goodValStr, Bool.and_eq_true]
  refine ⟨h.1, ?_⟩
  rw [List.all_eq_true]
  intro c hc
  exact isWordChar_not_special ((List.all_eq_true.mp h.2) c hc)

theorem goodKey_append {a b : String} (ha : goodKey a = true)
    (hb : b.data.all isWordChar = true) : goodKey (a ++ b) = true := by
  simp only [goodKey, Bool.and_eq_true, bne_iff_ne] at ha ⊢
  constructor
  · apply ne_empty_of_data_ne_nil
    rw [data_append]
    intro hcontra
    exact data_ne_nil ha.1 (List.append_eq_nil.mp hcontra).1
  · rw [data_append, List.all_append]
    simp [ha.2, hb]

theorem serialLine_data (k s : String) :
    (k ++ "=\"" ++ s ++ "\"").data
      = k.data ++ Char.ofNat 61 :: dquote :: (s.data ++ [dquote]) := by
  rw [data_append, data_append, data_append]
  rw [show ("=\"" : String).data = [Char.ofNat 61, dquote] from by decide,
      show ("\"" : String).data = [dquote] from by decide]
  simp

theorem parseLineChars_entry {kd sd : List Char} (hk0 : kd ≠ [])
    (hkw : kd.all isWordChar = true)
    (hnl : sd.all (fun c => !(c == Char.ofNat 10)) = true) :
    parseLineChars (kd ++ Char.ofNat 61 :: dquote :: (sd ++ [dquote]))
      = some (kd, dquote :: (sd ++ [dquote])) := by
  have hall : (dquote :: (sd ++ [dquote])).all
      (fun ch => !(ch == Char.ofNat 10)) = true := by
    simp only [List.all_cons, List.all_append, hnl]
    decide
  have hke : kd.isEmpty = false := by
    cases kd with
    | nil => exact absurd rfl hk0
    | cons a t => rfl
  simp only [parseLineChars]
  rw [takeWhile_append_stop hkw (by decide), dropWhile_append_stop hkw (by decide)]
  simp only [hke, Bool.false_eq_true, if_false]
  rw [List.dropWhile_cons, if_neg (by decide)]
  simp only [beq_self_eq_true, if_true]
  rw [List.dropWhile_cons, if_neg (by decide)]
  rw [takeWhile_of_all hall]

theorem stripVal_quoted {sd : List Char} (h : sd ≠ []) :
    stripVal (dquote :: (sd ++ [dquote])) = .ok (some sd) := by
  unfold stripVal
  simp only [beq_self_eq_true, Bool.true_or, if_true]
  rw [List.getLast?_concat]
  simp only [beq_self_eq_true, Bool.true_or, if_true, List.dropLast_concat]
  simp [List.isEmpty_iff, h]

theorem loadLines_cons_entry {k s : String} {rest : List String} {conf : Store}
    (hk : goodKey k = true) (hs : goodValStr s = true) :
    loadLines ((k ++ "=\"" ++ s ++ "\"") :: rest) conf
      = loadLines rest (dictInsert conf k (.pystr s)) := by
  have hp : parseLineChars (k ++ "=\"" ++ s ++ "\"").data
      = some (k.data, dquote :: (s.data ++ [dquote])) := by
    rw [serialLine_data]
    exact parseLineChars_entry (data_ne_nil (goodKey_ne_empty hk))
      (goodKey_all_word hk) (goodValStr_no_nl hs)
  have hr : rstripChars (dquote :: (s.data ++ [dquote]))
      = dquote :: (s.data ++ [dquote]) := by
    rw [show dquote :: (s.data ++ [dquote]) = (dquote :: s.data) ++ [dquote] from rfl]
    exact rstripChars_snoc (by decide)
  have hsv : stripVal (dquote :: (s.data ++ [dquote])) = .ok (some s.data) :=
    stripVal_quoted (data_ne_nil (goodValStr_ne_empty hs))
  simp only [loadLines, hp, hr, hsv]

theorem loadLines_serialize (conf : Store) : ∀ acc : Store,
    conf.all goodEntry = true → (conf.map Prod.fst).Nodup →
    (∀ k ∈ conf.map Prod.fst, dictLookup acc k = none) →
    loadLines (serializeStore conf) acc = .ok (acc ++ conf) := by
  induction conf with
  | nil => intro acc _ _ _; simp [serializeStore, loadLines]
  | cons e rest ih =>
    intro acc hg hn hd
    obtain ⟨k, v⟩ := e
    simp only [List.all_cons, Bool.and_eq_true] at hg
    cases v with
    | pynone => exact absurd hg.1 (by simp [goodEntry])
    | pystr s =>
      simp only [goodEntry, Bool.and_eq_true] at hg
      rw [show serializeStore ((k, .pystr s) :: rest)
            = (k ++ "=\"" ++ s ++ "\"") :: serializeStore rest from rfl]
      rw [loadLines_cons_entry hg.1.1 hg.1.2]
      rw [dictInsert_of_lookup_none (hd k (by simp))]
      simp only [List.map_cons, List.nodup_cons] at hn
      have hfresh : ∀ k2 ∈ List.map Prod.fst rest,
          dictLookup (acc ++ [(k, PyVal.pystr s)]) k2 = none := by
        intro k2 hk2
        rw [dictLookup_append_left_none (hd k2 (by simp [hk2]))]
        have hne : k ≠ k2 := fun he => hn.1 (he ▸ hk2)
        simp [dictLookup, hne]
      rw [show acc ++ (k, PyVal.pystr s) :: rest
            = (acc ++ [(k, PyVal.pystr s)]) ++ rest by simp]
      exact ih (acc ++ [(k, PyVal.pystr s)]) hg.2 hn.2 hfresh

theorem loadrcconf_serialize {conf : Store} (hg : conf.all goodEntry = true)
    (hn : (conf.map Prod.fst).Nodup) :
    loadrcconfLines (serializeStore conf) = .ok conf := by
  have h := loadLines_serialize conf [] hg hn (fun k _ => rfl)
  simpa [loadrcconfLines] using h

/-- The observable effect of one `updatercconf` call on a well-formed
serialized store: the file afterwards is the serialization of the
upserted dict, and a write happened exactly when the stored value was
absent or different. -/
theorem updatercconf_serialized {conf : Store} (k : String) (v : PyVal) (w : Nat)
    (hg : conf.all goodEntry = true) (hn : (conf.map Prod.fst).Nodup) :
    updatercconf k v ⟨serializeStore conf, w⟩
      = .ok ⟨serializeStore (dictInsert conf k v),
             if dictLookup conf k = some v then w else w + 1⟩ := by
  rw [updatercconf]
  rw [show (⟨serializeStore conf, w⟩ : RcState).fileLines = serializeStore conf from rfl]
  rw [loadrcconf_serialize hg hn]
  cases hl : dictLookup conf k with
  | none => simp [hl]
  | some v0 =>
    by_cases hv : v0 = v
    · subst hv
      rw [dictInsert_of_lookup_self hl]
      simp [hl]
    · simp [hl, hv]

/-- Serialization cannot tell `None` from the string `"None"`
(`'%s' % None`). -/
theorem serialize_dictInsert_toPyStr (conf : Store) (k : String) (v : PyVal) :
    serializeStore (dictInsert conf k v)
      = serializeStore (dictInsert conf k (.pystr v.toPyStr)) := by
  induction conf with
  | nil => rfl
  | cons e rest ih =>
    obtain ⟨k0, v0⟩ := e
    by_cases hk : k0 = k
    · simp [dictInsert, hk, serializeStore, PyVal.toPyStr]
    · simp only [dictInsert, hk, if_false]
      rw [show ∀ (x : String × PyVal) (l : Store), serializeStore (x :: l)
            = (x.1 ++ "=\"" ++ x.2.toPyStr ++ "\"") :: serializeStore l from fun _ _ => rfl]
      rw [show ∀ (x : String × PyVal) (l : Store), serializeStore (x :: l)
            = (x.1 ++ "=\"" ++ x.2.toPyStr ++ "\"") :: serializeStore l from fun _ _ => rfl]
      rw [ih]

theorem ifconfig_key_ne_defaultrouter (n : String) :
    ("ifconfig_" ++ n) ≠ "defaultrouter" := by
  intro he
  have hd := congrArg String.data he
  rw [data_append] at hd
  rw [show ("ifconfig_" : String).data = 'i' :: ("fconfig_" : String).data from by decide] at hd
  rw [show ("defaultrouter" : String).data = 'd' :: ("efaultrouter" : String).data from by decide] at hd
  rw [List.cons_append] at hd
  exact absurd (List.head_eq_of_cons_eq hd) (by decide)

theorem ifconfig_key_ne_defaultroute (n : String) :
    ("ifconfig_" ++ n) ≠ "defaultroute" := by
  intro he
  have hd := congrArg String.data he
  rw [data_append] at hd
  rw [show ("ifconfig_" : String).data = 'i' :: ("fconfig_" : String).data from by decide] at hd
  rw [show ("defaultroute" : String).data = 'd' :: ("efaultroute" : String).data from by decide] at hd
  rw [List.cons_append] at hd
  exact absurd (List.head_eq_of_cons_eq hd) (by decide)

/-! ### String facts used by the renderer theorems -/

theorem str_append_assoc (a b c : String) : (a ++ b) ++ c = a ++ (b ++ c) := by
  have h : ((a ++ b) ++ c).data = (a ++ (b ++ c)).data := by
    simp [data_append, List.append_assoc]
  exact congrArg String.mk h

theorem str_append_left_cancel {a b c : String} (h : a ++ b = a ++ c) : b = c := by
  have hd := congrArg String.data h
  rw [data_append, data_append] at hd
  exact congrArg String.mk (List.append_cancel_left hd)

/-! ### Concrete fixtures (the spec's own examples) -/

/-- Listing where MAC `aa:bb:cc:dd:ee:ff` belongs to `vtnet0`. -/
def listingVtnet : Listing := [("vtnet0", some "aa:bb:cc:dd:ee:ff")]

/-- Listing where the same MAC belongs to the declared name `eth0`. -/
def listingEth : Listing := [("eth0", some "aa:bb:cc:dd:ee:ff")]

def subnetStaticGw : Subnet :=
  ⟨some "static", some "192.168.1.5", some "255.255.255.0",
   some "192.168.1.254", none, none⟩

def subnetStaticNoGw : Subnet :=
  ⟨some "static", some "192.168.1.5", some "255.255.255.0", none, none, none⟩

def subnetDhcp : Subnet := ⟨some "dhcp", none, none, none, none, none⟩

/-- The spec's rename example: declared `eth0`, MAC resolving to `vtnet0`. -/
def ifaceEth0Vtnet : Interface :=
  ⟨some "eth0", some "aa:bb:cc:dd:ee:ff", [subnetStaticGw]⟩

def ifaceEth0Gw : Interface :=
  ⟨some "eth0", some "aa:bb:cc:dd:ee:ff", [subnetStaticGw]⟩

def ifaceEth0NoGw : Interface :=
  ⟨some "eth0", some "aa:bb:cc:dd:ee:ff", [subnetStaticNoGw]⟩

def emptyFB : FBState := ⟨⟨[], 0⟩, [], []⟩

def emptyNB : NBState := ⟨[], [], [], []⟩

/-- Value of key `k` in the store file produced by a FreeBSD render
started on an empty rc.conf (`none` when the render failed or the key is
absent). -/
def fbFinalKey (listing : Listing) (ifaces : List Interface) (k : String) :
    Option PyVal :=
  match writeNetworkFreebsd listing ifaces emptyFB with
  | .error _ => none
  | .ok st =>
    match loadrcconfLines st.rc.fileLines with
    | .error _ => none
    | .ok conf => dictLookup conf k

/-- Write counts of two consecutive renders of the same model, the
second over the freshly rendered store. -/
def fbRenderTwiceWrites (listing : Listing) (ifaces : List Interface) :
    Option (Nat × Nat) :=
  match writeNetworkFreebsd listing ifaces emptyFB with
  | .error _ => none
  | .ok st1 =>
    match writeNetworkFreebsd listing ifaces ⟨st1.rc, [], []⟩ with
    | .error _ => none
    | .ok st2 => some (st1.rc.writes, st2.rc.writes)

/-! ### Claim C3 -/

/-- Claim C3: the spec requires that a `key=` line — whose value is the
empty string after trailing-whitespace stripping — never raises an index
error (a guard before indexing for quote characters).  The code has no
such guard: `val[0]` is evaluated first and raises `IndexError`, which
aborts the whole load.  (The `len(val) == 0` skip exists in the code but
runs only after the indexing.)  This theorem evaluates the loader at the
failing inputs `key=` and `key= `. -/
theorem c3_empty_value_index_error :
    loadrcconfLines ["key="] = .error "IndexError"
      ∧ loadrcconfLines ["key= "] = .error "IndexError"
      ∧ loadrcconfLines ["hostname=\"x\"", "key=", "other=\"y\""]
          = .error "IndexError" :=
  ⟨rfl, rfl, rfl⟩

/-! ### Claim C7 -/

/-- Claim C7: loading `hostname="myhost"` yields the value `myhost` for
key `hostname` — exactly one leading and one trailing quote character
(single or double) is stripped, not recursively (`key=""myhost""` keeps
the inner quote layer) — and a line whose value becomes empty after
quote stripping, such as `key=""`, yields no entry for that key. -/
theorem c7_quote_stripping :
    loadrcconfLines ["hostname=\"myhost\""] = .ok [("hostname", .pystr "myhost")]
      ∧ loadrcconfLines ["key=\"\""] = .ok []
      ∧ loadrcconfLines ["key=\"\"myhost\"\""] = .ok [("key", .pystr "\"myhost\"")]
      ∧ loadrcconfLines ["hostname='myhost'"] = .ok [("hostname", .pystr "myhost")] :=
  ⟨rfl, rfl, rfl, rfl⟩

/-! ### Claim C9 -/

/-- Claim C9 counterexample: the claim says EVERY interface whose name
matches the loopback pattern is skipped with zero store mutations and
stays out of the DHCP aggregate.  The NetBSD renderer has no loopback
check at all: rendering `lo0` with a DHCP subnet lands `lo0` in the
DHCP-interfaces aggregate and mutates the store with `dhcpcd="YES"` and
`dhcpcd_flags="lo0"`. -/
theorem c9_counterexample :
    writeNetworkNetbsd [] [⟨some "lo0", none, [subnetDhcp]⟩] emptyNB
      = .ok ⟨[("dhcpcd", "YES"), ("dhcpcd_flags", "lo0")], [some "lo0"], [], []⟩ :=
  rfl

/-- Claim C9 (amended): only the FreeBSD renderer skips loopback-named
interfaces.  There, an interface whose declared name matches `^lo\d+$`
is skipped entirely: rendering it in front of any interface list over
any state equals rendering the list without it (zero store mutations,
nothing accumulated); the NetBSD renderer performs no such check (see
the counterexample). -/
theorem c9_loopback_skip_freebsd (listing : Listing) (n : String)
    (mac : Option String) (subs : List Subnet) (rest : List Interface)
    (st : FBState) (hlo : loMatch n = true) :
    writeNetworkFreebsd listing (⟨some n, mac, subs⟩ :: rest) st
      = writeNetworkFreebsd listing rest st := by
  have hne : n ≠ "" := by
    intro he
    subst he
    exact absurd hlo (by decide)
  have hstep : stepFreebsd listing st ⟨some n, mac, subs⟩ = .ok st := by
    rw [stepFreebsd]
    have hcond : (pyTruthy (some n) && loMatch ((some n).getD "")) = true := by
      simp [pyTruthy, bne_iff_ne, hne, hlo]
    rw [hcond]
    rfl
  rw [writeNetworkFreebsd, List.foldlM_cons, hstep]
  rfl

/-- Claim C9 witness: the FreeBSD frame property applied to `lo0` with a
DHCP subnet in front of the empty tail. -/
theorem c9_loopback_skip_freebsd_witness :
    writeNetworkFreebsd [] [⟨some "lo0", none, [subnetDhcp]⟩] emptyFB
      = writeNetworkFreebsd [] [] emptyFB :=
  c9_loopback_skip_freebsd [] "lo0" none [subnetDhcp] [] emptyFB (by decide)

/-! ### Claim C10 -/

/-- Claim C10 counterexample: the claim quantifies over every interface
spec with an empty subnets sequence, but in the FreeBSD renderer a
loopback-named interface is skipped before `subnets[0]` is evaluated:
rendering `lo7` with no subnets succeeds and touches nothing. -/
theorem c10_counterexample :
    writeNetworkFreebsd [] [⟨some "lo7", none, []⟩] emptyFB = .ok emptyFB := rfl

/-- Claim C10 (amended): an interface whose subnets sequence is empty
raises `IndexError` at `subnets[0]`, aborting the render before any
later interface is processed — in the FreeBSD renderer for every
interface that is not loopback-named (those are skipped first), and in
the NetBSD renderer for every interface unconditionally. -/
theorem c10_empty_subnets_index_error (listing : Listing) (conf : Store)
    (w : Nat) (ns sd : List String) (iface : Interface)
    (others : List Interface) (hg : conf.all goodEntry = true)
    (hn : (conf.map Prod.fst).Nodup) (hsub : iface.subnets = [])
    (hlo : (pyTruthy iface.name && loMatch (iface.name.getD "")) = false) :
    writeNetworkFreebsd listing (iface :: others)
        ⟨⟨serializeStore conf, w⟩, ns, sd⟩ = .error "IndexError"
    ∧ ∀ st : NBState,
        writeNetworkNetbsd listing (iface :: others) st = .error "IndexError" := by
  constructor
  · have hstep : stepFreebsd listing ⟨⟨serializeStore conf, w⟩, ns, sd⟩ iface
        = .error "IndexError" := by
      rw [stepFreebsd, hlo]
      simp only [Bool.false_eq_true, if_false]
      cases hmn : (pyTruthy iface.mac_address && pyTruthy iface.name) with
      | false => simp [hsub]
      | true =>
        simp only [if_true]
        by_cases hcur : get_ifname_by_mac listing iface.mac_address ≠ iface.name
        · rw [if_pos hcur,
              updatercconf_serialized _ _ _ hg hn]
          simp [hsub]
        · rw [if_neg hcur]
          simp [hsub]
    rw [writeNetworkFreebsd, List.foldlM_cons, hstep]
    rfl
  · intro st
    have hstep : stepNetbsd listing st iface = .error "IndexError" := by
      rw [stepNetbsd, hsub]
    rw [writeNetworkNetbsd, List.foldlM_cons, hstep]
    rfl

/-- Claim C10 witness: a named, non-loopback interface with no subnets
aborts both renderers with `IndexError` even when followed by a healthy
interface. -/
theorem c10_empty_subnets_index_error_witness :
    writeNetworkFreebsd listingEth (⟨some "eth0", none, []⟩ :: [ifaceEth0Gw])
        ⟨⟨serializeStore [], 3⟩, [], []⟩ = .error "IndexError" :=
  (c10_empty_subnets_index_error listingEth [] 3 [] [] ⟨some "eth0", none, []⟩
    [ifaceEth0Gw] (by decide) (by decide) rfl (by decide)).1

/-! ### Claim C2 -/

/-- Claim C2 counterexample: an interface with no declared name whose
MAC has no matching block in the listing is claimed to be dropped with a
logged warning, with rendering continuing.  Instead the FreeBSD renderer
raises `TypeError` at `'ifconfig_' + None` and aborts: the healthy
interface that follows is never rendered. -/
theorem c2_counterexample :
    writeNetworkFreebsd listingVtnet
        [⟨none, some "00:11:22:33:44:55", [subnetDhcp]⟩, ifaceEth0Vtnet] emptyFB
      = .error "TypeError" := rfl

/-- Claim C2 (amended): an interface with no usable declared name whose
MAC lookup returns not-found is NOT dropped: the unresolved name (`None`)
reaches `'ifconfig_' + device_name` (or the static address concatenation)
and the render raises `TypeError`, aborting the cycle — no later
interface is processed.  The not-found condition is fatal. -/
theorem c2_unresolved_interface_aborts (listing : Listing) (conf : Store)
    (w : Nat) (ns sd : List String) (iface : Interface)
    (others : List Interface) (hg : conf.all goodEntry = true)
    (hn : (conf.map Prod.fst).Nodup)
    (hname : pyTruthy iface.name = false)
    (hfind : get_ifname_by_mac listing iface.mac_address = none)
    (hsub : iface.subnets ≠ []) :
    writeNetworkFreebsd listing (iface :: others)
        ⟨⟨serializeStore conf, w⟩, ns, sd⟩ = .error "TypeError" := by
  obtain ⟨sub, rest2, hsubeq⟩ : ∃ s r, iface.subnets = s :: r := by
    cases hs : iface.subnets with
    | nil => exact absurd hs hsub
    | cons a b => exact ⟨a, b, rfl⟩
  have hstep : stepFreebsd listing ⟨⟨serializeStore conf, w⟩, ns, sd⟩ iface
      = .error "TypeError" := by
    rw [stepFreebsd, hname]
    simp only [Bool.and_false, Bool.false_and, Bool.false_eq_true, if_false]
    rw [hfind, hsubeq]
    by_cases hty : sub.type = some "static"
    · cases ha : sub.address with
      | none => simp [hty, ha, mkIfconfig]
      | some a =>
        cases hmk : sub.netmask with
        | none => simp [hty, ha, hmk, mkIfconfig]
        | some mk =>
          simp only [hty, ha, hmk, mkIfconfig, if_true]
          rw [updatercconf_serialized _ _ _ hg hn]
          rfl
    · simp [hty, pyKeyName]
  rw [writeNetworkFreebsd, List.foldlM_cons, hstep]
  rfl

/-- Claim C2 witness: a nameless, MAC-less interface with a static
subnet (address and netmask present, so the failure is exactly at the
key construction) aborts the render. -/
theorem c2_unresolved_interface_aborts_witness :
    writeNetworkFreebsd [] [⟨none, none, [subnetStaticNoGw]⟩]
        ⟨⟨serializeStore [], 0⟩, [], []⟩ = .error "TypeError" :=
  c2_unresolved_interface_aborts [] [] 0 [] [] ⟨none, none, [subnetStaticNoGw]⟩
    [] (by decide) (by decide) rfl rfl (by decide)

/-! ### Claim C6 -/

/-- Claim C6 counterexample: the claim requires, of a DHCP interface,
BOTH a per-interface DHCP-sentinel upsert AND collection into the
DHCP-interfaces aggregate.  The NetBSD renderer — the only one that has
the aggregate driving `dhcpcd`/`dhcpcd_flags` — writes no per-interface
key at all: the rendered store holds exactly the two aggregate entries
and no `ifconfig_eth0`. -/
theorem c6_counterexample :
    writeNetworkNetbsd [] [⟨some "eth0", none, [subnetDhcp]⟩] emptyNB
      = .ok ⟨[("dhcpcd", "YES"), ("dhcpcd_flags", "eth0")], [some "eth0"], [], []⟩ :=
  rfl

/-- Claim C6 (amended): the two DHCP behaviors live in different
renderers.  (1) The FreeBSD renderer upserts the per-interface key
`ifconfig_<name>` with the sentinel `"DHCP"` for every interface whose
first subnet is not static (and has no aggregate).  (2) The NetBSD
renderer only appends the interface to `dhcp_interfaces`, leaving the
store untouched at that point.  (3) When the aggregate is nonempty, the
NetBSD renderer then writes `dhcpcd="YES"` and `dhcpcd_flags` with the
joined interface names. -/
theorem c6_dhcp_rendering :
    (∀ (listing : Listing) (conf : Store) (w : Nat) (ns sd : List String)
        (n m : String) (ty ad nm gw : Option String)
        (dn ds : Option (List String)) (restSub : List Subnet),
        conf.all goodEntry = true → (conf.map Prod.fst).Nodup →
        n ≠ "" → loMatch n = false → m ≠ "" →
        get_ifname_by_mac listing (some m) = some n →
        ty ≠ some "static" →
        stepFreebsd listing ⟨⟨serializeStore conf, w⟩, ns, sd⟩
            ⟨some n, some m, ⟨ty, ad, nm, gw, dn, ds⟩ :: restSub⟩
          = .ok ⟨⟨serializeStore (dictInsert conf ("ifconfig_" ++ n) (.pystr "DHCP")),
                 if dictLookup conf ("ifconfig_" ++ n) = some (.pystr "DHCP")
                 then w else w + 1⟩, ns, sd⟩
        ∧ dictLookup (dictInsert conf ("ifconfig_" ++ n) (.pystr "DHCP"))
            ("ifconfig_" ++ n) = some (.pystr "DHCP"))
    ∧ (∀ (listing : Listing) (st : NBState) (name : Option String)
        (ty ad nm gw : Option String) (dn ds : Option (List String))
        (restSub : List Subnet),
        ty ≠ some "static" →
        stepNetbsd listing st ⟨name, none, ⟨ty, ad, nm, gw, dn, ds⟩ :: restSub⟩
          = .ok ⟨st.kv, st.dhcp_interfaces ++ [name], st.nameservers,
                 st.searchdomains⟩)
    ∧ (∀ (kv : List (String × String)) (ns sd : List String) (n : String),
        finishNetbsd ⟨kv, [some n], ns, sd⟩
          = .ok ⟨set_rc_config_value (set_rc_config_value kv "dhcpcd" "YES")
                   "dhcpcd_flags" n, [some n], ns, sd⟩) := by
  refine ⟨?_, ?_, ?_⟩
  · intro listing conf w ns sd n m ty ad nm gw dn ds restSub
      hg hnd hne hlo hm hfind hty
    constructor
    · rw [stepFreebsd]
      have hcond : (pyTruthy (some n) && loMatch ((some n).getD "")) = false := by
        simp [hlo]
      rw [hcond]
      have hmn : (pyTruthy (some m) && pyTruthy (some n)) = true := by
        simp [pyTruthy, bne_iff_ne, hm, hne]
      have hupd : ∀ (k : String) (v : PyVal) (w2 : Nat),
          updatercconf k v ⟨serializeStore conf, w2⟩
            = .ok ⟨serializeStore (dictInsert conf k v),
                   if dictLookup conf k = some v then w2 else w2 + 1⟩ :=
        fun k v w2 => updatercconf_serialized k v w2 hg hnd
      have hcur : ¬((get_ifname_by_mac listing (some m) : Option String)
          ≠ some n) := by simp [hfind]
      simp only [Bool.false_eq_true, if_false, hmn, if_true, hcur, hty,
        pyKeyName, hupd]
    · exact dictLookup_dictInsert_self _ _ _
  · intro listing st name ty ad nm gw dn ds restSub hty
    rw [stepNetbsd]
    simp only [pyTruthy, Bool.false_eq_true, if_false, hty]
  · intro kv ns sd n
    rfl

/-- Claim C6 witness: the FreeBSD DHCP-sentinel part applied to `eth0`
with a resolving MAC over the empty store. -/
theorem c6_dhcp_rendering_witness :
    stepFreebsd listingEth ⟨⟨serializeStore [], 0⟩, [], []⟩
        ⟨some "eth0", some "aa:bb:cc:dd:ee:ff", [subnetDhcp]⟩
      = .ok ⟨⟨serializeStore (dictInsert ([] : Store) ("ifconfig_" ++ "eth0")
               (PyVal.pystr "DHCP")),
             if dictLookup ([] : Store) ("ifconfig_" ++ "eth0")
                 = some (PyVal.pystr "DHCP") then 0 else 0 + 1⟩, [], []⟩
    ∧ dictLookup (dictInsert ([] : Store) ("ifconfig_" ++ "eth0")
          (PyVal.pystr "DHCP")) ("ifconfig_" ++ "eth0")
        = some (PyVal.pystr "DHCP") :=
  c6_dhcp_rendering.1 listingEth [] 0 [] [] "eth0" "aa:bb:cc:dd:ee:ff"
    (some "dhcp") none none none none none [] (by decide) (by decide)
    (by decide) (by decide) (by decide) (by decide) (by decide)

/-! ### Claim C1 -/

/-- Claim C1 counterexample: at the spec's own example (declared `eth0`,
MAC resolving to `vtnet0`, static subnet) the rename entry
`ifconfig_vtnet0_name="eth0"` is written, but the addressing key is
`ifconfig_eth0` — keyed off the DECLARED name — and `ifconfig_vtnet0`,
which the claim requires, is absent: the code never reassigns
`device_name` after emitting the rename directive. -/
theorem c1_counterexample :
    fbFinalKey listingVtnet [ifaceEth0Vtnet] "ifconfig_vtnet0" = none
    ∧ fbFinalKey listingVtnet [ifaceEth0Vtnet] "ifconfig_eth0"
        = some (PyVal.pystr "192.168.1.5 netmask 255.255.255.0")
    ∧ fbFinalKey listingVtnet [ifaceEth0Vtnet] "ifconfig_vtnet0_name"
        = some (PyVal.pystr "eth0")
    ∧ fbFinalKey listingVtnet [ifaceEth0Vtnet] "defaultrouter"
        = some (PyVal.pystr "192.168.1.254") :=
  ⟨rfl, rfl, rfl, rfl⟩

/-- Claim C1 (amended): when both a declared name and a MAC are present
and the MAC lookup yields a different real name, the renderer writes the
rename entry `ifconfig_<realname>_name="<declaredname>"` — but keys the
subsequent addressing entry off the DECLARED name (`ifconfig_<declared>`),
not off the real name.  Stated here for an interface whose first subnet
is non-static (the DHCP sentinel path); the counterexample shows the
static path at the spec's example. -/
theorem c1_rename_uses_declared_key (listing : Listing) (conf : Store)
    (w : Nat) (ns sd : List String) (n m real : String)
    (ty ad nm gw : Option String) (dn ds : Option (List String))
    (restSub : List Subnet)
    (hg : conf.all goodEntry = true) (hnd : (conf.map Prod.fst).Nodup)
    (hkn : goodKey n = true) (hkr : goodKey real = true)
    (hlo : loMatch n = false) (hm : m ≠ "")
    (hfind : get_ifname_by_mac listing (some m) = some real)
    (hne : real ≠ n) (hdistinct : n ≠ real ++ "_name")
    (hty : ty ≠ some "static") :
    ∃ w2 : Nat,
      stepFreebsd listing ⟨⟨serializeStore conf, w⟩, ns, sd⟩
          ⟨some n, some m, ⟨ty, ad, nm, gw, dn, ds⟩ :: restSub⟩
        = .ok ⟨⟨serializeStore (dictInsert
              (dictInsert conf ("ifconfig_" ++ real ++ "_name") (PyVal.pystr n))
              ("ifconfig_" ++ n) (PyVal.pystr "DHCP")), w2⟩, ns, sd⟩
      ∧ dictLookup (dictInsert
            (dictInsert conf ("ifconfig_" ++ real ++ "_name") (PyVal.pystr n))
            ("ifconfig_" ++ n) (PyVal.pystr "DHCP"))
          ("ifconfig_" ++ real ++ "_name") = some (PyVal.pystr n)
      ∧ dictLookup (dictInsert
            (dictInsert conf ("ifconfig_" ++ real ++ "_name") (PyVal.pystr n))
            ("ifconfig_" ++ n) (PyVal.pystr "DHCP"))
          ("ifconfig_" ++ n) = some (PyVal.pystr "DHCP") := by
  have hnn : n ≠ "" := goodKey_ne_empty hkn
  have hkeys : ("ifconfig_" ++ real ++ "_name") ≠ ("ifconfig_" ++ n) := by
    intro he
    apply hdistinct
    have h2 : "ifconfig_" ++ (real ++ "_name") = "ifconfig_" ++ n := by
      rw [← str_append_assoc]
      exact he
    exact (str_append_left_cancel h2).symm
  have hkey1 : goodKey ("ifconfig_" ++ real ++ "_name") = true :=
    goodKey_append (goodKey_append (by decide) (goodKey_all_word hkr)) (by decide)
  have hg1 : (dictInsert conf ("ifconfig_" ++ real ++ "_name")
      (PyVal.pystr n)).all goodEntry = true :=
    all_goodEntry_dictInsert hg hkey1 (goodValStr_of_goodKey hkn)
  have hn1 : ((dictInsert conf ("ifconfig_" ++ real ++ "_name")
      (PyVal.pystr n)).map Prod.fst).Nodup :=
    nodup_keys_dictInsert hnd
  have hmain : stepFreebsd listing ⟨⟨serializeStore conf, w⟩, ns, sd⟩
      ⟨some n, some m, ⟨ty, ad, nm, gw, dn, ds⟩ :: restSub⟩
    = .ok ⟨⟨serializeStore (dictInsert
          (dictInsert conf ("ifconfig_" ++ real ++ "_name") (PyVal.pystr n))
          ("ifconfig_" ++ n) (PyVal.pystr "DHCP")),
        if dictLookup (dictInsert conf ("ifconfig_" ++ real ++ "_name")
            (PyVal.pystr n)) ("ifconfig_" ++ n) = some (PyVal.pystr "DHCP")
        then (if dictLookup conf ("ifconfig_" ++ real ++ "_name")
              = some (PyVal.pystr n) then w else w + 1)
        else (if dictLookup conf ("ifconfig_" ++ real ++ "_name")
              = some (PyVal.pystr n) then w else w + 1) + 1⟩, ns, sd⟩ := by
    rw [stepFreebsd]
    have hcond : (pyTruthy (some n) && loMatch ((some n).getD "")) = false := by
      simp [hlo]
    rw [hcond]
    have hmn : (pyTruthy (some m) && pyTruthy (some n)) = true := by
      simp [pyTruthy, bne_iff_ne, hm, hnn]
    have hupd2 : ∀ (k : String) (v : PyVal) (w2 : Nat),
        updatercconf k v ⟨serializeStore (dictInsert conf
            ("ifconfig_" ++ real ++ "_name") (PyVal.pystr n)), w2⟩
          = .ok ⟨serializeStore (dictInsert (dictInsert conf
                ("ifconfig_" ++ real ++ "_name") (PyVal.pystr n)) k v),
               if dictLookup (dictInsert conf
                   ("ifconfig_" ++ real ++ "_name") (PyVal.pystr n)) k = some v
               then w2 else w2 + 1⟩ :=
      fun k v w2 => updatercconf_serialized k v w2 hg1 hn1
    simp only [Bool.false_eq_true, if_false, hmn, if_true, hfind,
      Option.getD_some, pyShowOpt]
    rw [if_pos (show (some real : Option String) ≠ some n by simp [hne])]
    rw [updatercconf_serialized _ _ _ hg hnd]
    simp only [hty, if_false, pyKeyName, hupd2]
  refine ⟨_, hmain, ?_, ?_⟩
  · rw [dictLookup_dictInsert_ne _ _ hkeys]
    exact dictLookup_dictInsert_self _ _ _
  · exact dictLookup_dictInsert_self _ _ _

/-- Claim C1 witness: the amended rename behavior at the concrete
`eth0`/`vtnet0` instance with a DHCP subnet over the empty store. -/
theorem c1_rename_uses_declared_key_witness :
    ∃ w2 : Nat,
      stepFreebsd listingVtnet ⟨⟨serializeStore [], 0⟩, [], []⟩
          ⟨some "eth0", some "aa:bb:cc:dd:ee:ff", [subnetDhcp]⟩
        = .ok ⟨⟨serializeStore (dictInsert
              (dictInsert ([] : Store) ("ifconfig_" ++ "vtnet0" ++ "_name")
                (PyVal.pystr "eth0"))
              ("ifconfig_" ++ "eth0") (PyVal.pystr "DHCP")), w2⟩, [], []⟩
      ∧ dictLookup (dictInsert
            (dictInsert ([] : Store) ("ifconfig_" ++ "vtnet0" ++ "_name")
              (PyVal.pystr "eth0"))
            ("ifconfig_" ++ "eth0") (PyVal.pystr "DHCP"))
          ("ifconfig_" ++ "vtnet0" ++ "_name") = some (PyVal.pystr "eth0")
      ∧ dictLookup (dictInsert
            (dictInsert ([] : Store) ("ifconfig_" ++ "vtnet0" ++ "_name")
              (PyVal.pystr "eth0"))
            ("ifconfig_" ++ "eth0") (PyVal.pystr "DHCP"))
          ("ifconfig_" ++ "eth0") = some (PyVal.pystr "DHCP") :=
  c1_rename_uses_declared_key listingVtnet [] 0 [] [] "eth0"
    "aa:bb:cc:dd:ee:ff" "vtnet0" (some "dhcp") none none none none none []
    (by decide) (by decide) (by decide) (by decide) (by decide) (by decide)
    (by decide) (by decide) (by decide) (by decide)

/-! ### Claim C5 -/

/-- Two gateway-bearing interfaces resolving to distinct names. -/
def listingTwo : Listing :=
  [("eth0", some "aa:aa:aa:aa:aa:01"), ("eth1", some "aa:aa:aa:aa:aa:02")]

def ifaceGwA : Interface :=
  ⟨some "eth0", some "aa:aa:aa:aa:aa:01",
   [⟨some "static", some "10.0.0.5", some "255.0.0.0", some "10.0.0.1",
     none, none⟩]⟩

def ifaceGwB : Interface :=
  ⟨some "eth1", some "aa:aa:aa:aa:aa:02",
   [⟨some "static", some "10.0.1.5", some "255.0.0.0", some "10.0.1.1",
     none, none⟩]⟩

/-- Claim C5 counterexample: the claim says the global default-gateway
key is upserted ONLY when the subnet has a gateway, staying unchanged
otherwise.  The FreeBSD renderer calls
`updatercconf('defaultrouter', subnet.get('gateway'))` unconditionally:
for a gateway-less static subnet over an initially empty store the key
is created with Python `None`, serialized as `defaultrouter="None"`,
instead of staying absent. -/
theorem c5_counterexample :
    fbFinalKey listingEth [ifaceEth0NoGw] "defaultrouter"
      = some (PyVal.pystr "None") := rfl

/-- Claim C5 (amended): the per-interface key receives
`"<address> netmask <netmask>"` in both renderers; the NetBSD renderer
upserts the default-route key only when a truthy gateway is present and
leaves it untouched otherwise, while the FreeBSD renderer upserts
`defaultrouter` unconditionally (the absent gateway becoming the string
`"None"`); among several gateway-bearing interfaces the last writer
wins. -/
theorem c5_static_rendering :
    (∀ (listing : Listing) (conf : Store) (w : Nat) (ns sd : List String)
        (n m a mk : String) (gw : Option String) (dn ds : Option (List String))
        (restSub : List Subnet),
        conf.all goodEntry = true → (conf.map Prod.fst).Nodup →
        n ≠ "" → loMatch n = false → m ≠ "" →
        get_ifname_by_mac listing (some m) = some n →
        goodValStr (pyOfOpt gw).toPyStr = true →
        ∃ w2 : Nat,
          stepFreebsd listing ⟨⟨serializeStore conf, w⟩, ns, sd⟩
              ⟨some n, some m,
               ⟨some "static", some a, some mk, gw, dn, ds⟩ :: restSub⟩
            = .ok ⟨⟨serializeStore (dictInsert
                  (dictInsert conf "defaultrouter"
                    (PyVal.pystr (pyOfOpt gw).toPyStr))
                  ("ifconfig_" ++ n) (PyVal.pystr (a ++ " netmask " ++ mk))),
                 w2⟩, ns ++ dn.getD [], sd ++ ds.getD []⟩
          ∧ dictLookup (dictInsert
                (dictInsert conf "defaultrouter"
                  (PyVal.pystr (pyOfOpt gw).toPyStr))
                ("ifconfig_" ++ n) (PyVal.pystr (a ++ " netmask " ++ mk)))
              ("ifconfig_" ++ n)
              = some (PyVal.pystr (a ++ " netmask " ++ mk))
          ∧ dictLookup (dictInsert
                (dictInsert conf "defaultrouter"
                  (PyVal.pystr (pyOfOpt gw).toPyStr))
                ("ifconfig_" ++ n) (PyVal.pystr (a ++ " netmask " ++ mk)))
              "defaultrouter" = some (PyVal.pystr (pyOfOpt gw).toPyStr))
    ∧ (∀ (listing : Listing) (st : NBState) (n a mk : String)
        (gw : Option String) (dn ds : Option (List String))
        (restSub : List Subnet),
        stepNetbsd listing st ⟨some n, none,
            ⟨some "static", some a, some mk, gw, dn, ds⟩ :: restSub⟩
          = .ok ⟨set_rc_config_value
                  (if pyTruthy gw then
                    set_rc_config_value st.kv "defaultroute" (gw.getD "")
                  else st.kv)
                  ("ifconfig_" ++ n) (a ++ " netmask " ++ mk),
                st.dhcp_interfaces, st.nameservers ++ dn.getD [],
                st.searchdomains ++ ds.getD []⟩)
    ∧ (∀ (kv : List (String × String)) (n v : String),
        dictLookup (set_rc_config_value kv ("ifconfig_" ++ n) v) "defaultroute"
          = dictLookup kv "defaultroute")
    ∧ fbFinalKey listingTwo [ifaceGwA, ifaceGwB] "defaultrouter"
        = some (PyVal.pystr "10.0.1.1") := by
  refine ⟨?_, ?_, ?_, rfl⟩
  · intro listing conf w ns sd n m a mk gw dn ds restSub
      hg hnd hnn hlo hm hfind hgwv
    have hg1 : (dictInsert conf "defaultrouter"
        (PyVal.pystr (pyOfOpt gw).toPyStr)).all goodEntry = true :=
      all_goodEntry_dictInsert hg (by decide) hgwv
    have hn1 : ((dictInsert conf "defaultrouter"
        (PyVal.pystr (pyOfOpt gw).toPyStr)).map Prod.fst).Nodup :=
      nodup_keys_dictInsert hnd
    have hmain : stepFreebsd listing ⟨⟨serializeStore conf, w⟩, ns, sd⟩
        ⟨some n, some m, ⟨some "static", some a, some mk, gw, dn, ds⟩ :: restSub⟩
      = .ok ⟨⟨serializeStore (dictInsert
            (dictInsert conf "defaultrouter" (PyVal.pystr (pyOfOpt gw).toPyStr))
            ("ifconfig_" ++ n) (PyVal.pystr (a ++ " netmask " ++ mk))),
          if dictLookup (dictInsert conf "defaultrouter"
              (PyVal.pystr (pyOfOpt gw).toPyStr)) ("ifconfig_" ++ n)
              = some (PyVal.pystr (a ++ " netmask " ++ mk))
          then (if dictLookup conf "defaultrouter" = some (pyOfOpt gw)
                then w else w + 1)
          else (if dictLookup conf "defaultrouter" = some (pyOfOpt gw)
                then w else w + 1) + 1⟩,
         ns ++ dn.getD [], sd ++ ds.getD []⟩ := by
      rw [stepFreebsd]
      have hcond : (pyTruthy (some n) && loMatch ((some n).getD "")) = false := by
        simp [hlo]
      rw [hcond]
      have hmn : (pyTruthy (some m) && pyTruthy (some n)) = true := by
        simp [pyTruthy, bne_iff_ne, hm, hnn]
      have hupd2 : ∀ (k : String) (v : PyVal) (w2 : Nat),
          updatercconf k v ⟨serializeStore (dictInsert conf "defaultrouter"
              (PyVal.pystr (pyOfOpt gw).toPyStr)), w2⟩
            = .ok ⟨serializeStore (dictInsert (dictInsert conf "defaultrouter"
                  (PyVal.pystr (pyOfOpt gw).toPyStr)) k v),
                 if dictLookup (dictInsert conf "defaultrouter"
                     (PyVal.pystr (pyOfOpt gw).toPyStr)) k = some v
                 then w2 else w2 + 1⟩ :=
        fun k v w2 => updatercconf_serialized k v w2 hg1 hn1
      have hcur : ¬((get_ifname_by_mac listing (some m) : Option String)
          ≠ some n) := by simp [hfind]
      simp only [Bool.false_eq_true, if_false, hmn, if_true, hcur, mkIfconfig]
      rw [updatercconf_serialized _ _ _ hg hnd,
          serialize_dictInsert_toPyStr conf "defaultrouter" (pyOfOpt gw)]
      simp only [pyKeyName, hupd2]
    refine ⟨_, hmain, ?_, ?_⟩
    · exact dictLookup_dictInsert_self _ _ _
    · rw [dictLookup_dictInsert_ne _ _ (Ne.symm (ifconfig_key_ne_defaultrouter n))]
      exact dictLookup_dictInsert_self _ _ _
  · intro listing st n a mk gw dn ds restSub
    rfl
  · intro kv n v
    exact dictLookup_dictInsert_ne _ _ (Ne.symm (ifconfig_key_ne_defaultroute n))

/-- Claim C5 witness: the FreeBSD static part applied to a gateway-less
subnet on `eth0` over the empty store — exercising the unconditional
`defaultrouter` upsert with `None`. -/
theorem c5_static_rendering_witness :
    ∃ w2 : Nat,
      stepFreebsd listingEth ⟨⟨serializeStore [], 0⟩, [], []⟩
          ⟨some "eth0", some "aa:bb:cc:dd:ee:ff", [subnetStaticNoGw]⟩
        = .ok ⟨⟨serializeStore (dictInsert
              (dictInsert ([] : Store) "defaultrouter"
                (PyVal.pystr (pyOfOpt none).toPyStr))
              ("ifconfig_" ++ "eth0")
              (PyVal.pystr ("192.168.1.5" ++ " netmask " ++ "255.255.255.0"))),
             w2⟩, [] ++ [], [] ++ []⟩
      ∧ dictLookup (dictInsert
            (dictInsert ([] : Store) "defaultrouter"
              (PyVal.pystr (pyOfOpt none).toPyStr))
            ("ifconfig_" ++ "eth0")
            (PyVal.pystr ("192.168.1.5" ++ " netmask " ++ "255.255.255.0")))
          ("ifconfig_" ++ "eth0")
          = some (PyVal.pystr ("192.168.1.5" ++ " netmask " ++ "255.255.255.0"))
      ∧ dictLookup (dictInsert
            (dictInsert ([] : Store) "defaultrouter"
              (PyVal.pystr (pyOfOpt none).toPyStr))
            ("ifconfig_" ++ "eth0")
            (PyVal.pystr ("192.168.1.5" ++ " netmask " ++ "255.255.255.0")))
          "defaultrouter" = some (PyVal.pystr (pyOfOpt none).toPyStr) :=
  c5_static_rendering.1 listingEth [] 0 [] [] "eth0" "aa:bb:cc:dd:ee:ff"
    "192.168.1.5" "255.255.255.0" none none none []
    (by decide) (by decide) (by decide) (by decide) (by decide) (by decide)
    (by decide)

/-! ### Claim C4 -/

/-- Claim C4 counterexample: rendering the same model a second time over
the freshly rendered store is claimed to produce no further mutation.
For a gateway-less static subnet the first pass stores Python `None`
for `defaultrouter` (serialized as the text `None`); the second pass
reloads the string `"None"`, compares it unequal to `None`, reports a
change and rewrites the file: write counts go from 2 to 3. -/
theorem c4_counterexample :
    fbRenderTwiceWrites listingEth [ifaceEth0NoGw] = some (2, 3) := rfl

/-- Claim C4 (amended): an upsert of a key whose stored value equals the
new value is a no-op reporting no change, and the file is rewritten
(write count bumped) exactly when the upsert inserted or changed a
value.  Second-pass idempotence of a full render consequently holds when
every upserted value is a string that round-trips the store file — e.g.
when every static subnet carries a gateway — but fails for a
gateway-less static subnet, whose `None` gateway reads back as the
string `"None"` (see the counterexample).  A repeated DNS merge adds no
duplicate resolver directives. -/
theorem c4_upsert_idempotent :
    (∀ (conf : Store) (k : String) (v : PyVal) (w : Nat),
        conf.all goodEntry = true → (conf.map Prod.fst).Nodup →
        updatercconf k v ⟨serializeStore conf, w⟩
          = .ok ⟨serializeStore (dictInsert conf k v),
                 if dictLookup conf k = some v then w else w + 1⟩)
    ∧ (∀ (conf : Store) (k : String) (v : PyVal) (w : Nat),
        conf.all goodEntry = true → (conf.map Prod.fst).Nodup →
        dictLookup conf k = some v →
        updatercconf k v ⟨serializeStore conf, w⟩
          = .ok ⟨serializeStore conf, w⟩)
    ∧ fbRenderTwiceWrites listingEth [ifaceEth0Gw] = some (2, 2)
    ∧ mergeEntries (mergeEntries [] ["8.8.8.8"]) ["8.8.8.8"]
        = mergeEntries [] ["8.8.8.8"] := by
  refine ⟨?_, ?_, rfl, rfl⟩
  · intro conf k v w hg hn
    exact updatercconf_serialized k v w hg hn
  · intro conf k v w hg hn hl
    rw [updatercconf_serialized k v w hg hn, dictInsert_of_lookup_self hl,
        if_pos hl]

/-- Claim C4 witness: the identical-value no-op at a concrete one-entry
store. -/
theorem c4_upsert_idempotent_witness :
    updatercconf "hostname" (PyVal.pystr "myhost")
        ⟨serializeStore [("hostname", PyVal.pystr "myhost")], 7⟩
      = .ok ⟨serializeStore [("hostname", PyVal.pystr "myhost")], 7⟩ :=
  c4_upsert_idempotent.2.1 [("hostname", PyVal.pystr "myhost")] "hostname"
    (PyVal.pystr "myhost") 7 (by decide) (by decide) (by decide)

/-! ### Claim C8 -/

theorem mergeEntries_cons (l : List String) (s : String) (rest : List String) :
    mergeEntries l (s :: rest)
      = mergeEntries (if s ∈ l then l else l ++ [s]) rest := by
  by_cases hs : s ∈ l <;> simp [mergeEntries, addEntry, hs]

theorem mem_mergeEntries_of_mem_left {l : List String} (new : List String)
    {s : String} (h : s ∈ l) : s ∈ mergeEntries l new := by
  induction new generalizing l with
  | nil => exact h
  | cons s0 rest ih =>
    rw [mergeEntries_cons]
    by_cases hs0 : s0 ∈ l
    · rw [if_pos hs0]
      exact ih h
    · rw [if_neg hs0]
      exact ih (List.mem_append_left _ h)

theorem mem_mergeEntries_of_mem_right {l new : List String} {s : String}
    (h : s ∈ new) : s ∈ mergeEntries l new := by
  induction new generalizing l with
  | nil => cases h
  | cons s0 rest ih =>
    rw [mergeEntries_cons]
    rcases List.mem_cons.mp h with he | hr
    · subst he
      apply mem_mergeEntries_of_mem_left
      by_cases hs0 : s ∈ l
      · rw [if_pos hs0]; exact hs0
      · rw [if_neg hs0]; exact List.mem_append_right _ (by simp)
    · exact ih hr

theorem nodup_mergeEntries {l : List String} (new : List String)
    (h : l.Nodup) : (mergeEntries l new).Nodup := by
  induction new generalizing l with
  | nil => exact h
  | cons s0 rest ih =>
    rw [mergeEntries_cons]
    by_cases hs0 : s0 ∈ l
    · rw [if_pos hs0]
      exact ih h
    · rw [if_neg hs0]
      refine ih ?_
      rw [List.nodup_append]
      refine ⟨h, by simp, ?_⟩
      intro a ha hb
      simp only [List.mem_singleton] at hb
      subst hb
      exact hs0 ha

/-- Claim C8: the DNS merge loop catches the duplicate error of each
add and keeps processing the remaining entries — the merge is total,
every accumulated entry (and every pre-existing directive) ends up in
the result, no duplicate is ever introduced, and adding `8.8.8.8` twice
leaves exactly one directive.  (`ResolvConf`'s duplicate-raising adds
are modelled from the spec, the catch-and-continue loop is the source.) -/
theorem c8_duplicate_dns_nonfatal :
    (∀ (l new : List String) (s : String), s ∈ new → s ∈ mergeEntries l new)
    ∧ (∀ (l new : List String) (s : String), s ∈ l → s ∈ mergeEntries l new)
    ∧ (∀ (l new : List String), l.Nodup → (mergeEntries l new).Nodup)
    ∧ (mergeEntries [] ["8.8.8.8", "8.8.8.8"]).count "8.8.8.8" = 1 :=
  ⟨fun _ _ _ h => mem_mergeEntries_of_mem_right h,
   fun _ new _ h => mem_mergeEntries_of_mem_left new h,
   fun _ new h => nodup_mergeEntries new h,
   rfl⟩

/-- Claim C8 witness: the duplicate `8.8.8.8` lands (once) in a merge
over an existing nameserver, and the result has no duplicates. -/
theorem c8_duplicate_dns_nonfatal_witness :
    "8.8.8.8" ∈ mergeEntries ["1.1.1.1"] ["8.8.8.8", "8.8.8.8"]
    ∧ (mergeEntries ["1.1.1.1"] ["8.8.8.8", "8.8.8.8"]).Nodup :=
  ⟨c8_duplicate_dns_nonfatal.1 ["1.1.1.1"] ["8.8.8.8", "8.8.8.8"] "8.8.8.8"
    (by decide),
   c8_duplicate_dns_nonfatal.2.2.1 ["1.1.1.1"] ["8.8.8.8", "8.8.8.8"]
    (by decide)⟩

end CloudInitNet
